import Mathlib

/-!
Shallow embedding of the Financial_Report_Generator scripts
(report_generator_enterprise.py, report_generator_plain.py,
report_generator_tabulate.py).

Python floats are idealized as exact values: an IEEE double is modelled as
a rational number, plus the special values inf, -inf and nan.  Arithmetic
on the rational part is exact (the spec treats field values and margins as
exact numbers); the special values follow IEEE/Python semantics, in
particular nan is never equal to anything under Python equality, and
division by literal zero raises ZeroDivisionError (modelled as Option.none
where the code can reach it).
-/

namespace FinReport

/-- Idealized Python float value: exact rational, infinity, minus infinity
or nan.  Negative zero is collapsed into the rational 0, which is sound
for this development because Python treats 0.0 and -0.0 as equal (and
equal-hashing) in every operation the scripts perform. -/
inductive PyFloat where
  | finite (q : ℚ)
  | inf
  | negInf
  | nan
deriving DecidableEq, Repr

/-- Python equality on floats: nan compares unequal to everything,
including itself. -/
def pyEq : PyFloat → PyFloat → Bool
  | .finite a, .finite b => decide (a = b)
  | .inf, .inf => true
  | .negInf, .negInf => true
  | _, _ => false

/-- Finiteness of an idealized Python float. -/
def PyFloat.isFinite : PyFloat → Bool
  | .finite _ => true
  | _ => false

/-- Python float division.  Returns none exactly when Python raises
ZeroDivisionError (denominator equal to 0.0). -/
def pyDiv (a b : PyFloat) : Option PyFloat :=
  match b with
  | .finite r =>
    if r = 0 then none
    else
      match a with
      | .finite q => some (.finite (q / r))
      | .inf => some (if r < 0 then .negInf else .inf)
      | .negInf => some (if r < 0 then .inf else .negInf)
      | .nan => some .nan
  | .inf =>
    match a with
    | .finite _ => some (.finite 0)
    | _ => some .nan
  | .negInf =>
    match a with
    | .finite _ => some (.finite 0)
    | _ => some .nan
  | .nan => some .nan

/-- Python float addition (used for the running revenue total). -/
def pyAdd : PyFloat → PyFloat → PyFloat
  | .finite a, .finite b => .finite (a + b)
  | .finite _, x => x
  | x, .finite _ => x
  | .inf, .inf => .inf
  | .negInf, .negInf => .negInf
  | _, _ => .nan

/-- A raw field value as it reaches validation: a string (CSV cell or JSON
string), a number (JSON numeric literal, idealized), Python None (missing
JSON key or JSON null), or any other non-coercible object (nested JSON
list/dict). -/
inductive Raw where
  | str (s : String)
  | num (x : PyFloat)
  | pynone
  | other
deriving DecidableEq, Repr

/-! The grammar that CPython's float() accepts for strings: surrounding
whitespace, an optional sign, then either a case-insensitive keyword
(inf, infinity, nan) or a decimal literal with optional fractional part
and exponent, where digit groups may contain single underscores between
digits. -/

/-- ASCII whitespace stripped by float(). -/
def isWS (c : Char) : Bool :=
  c = ' ' || c = '\t' || c = '\n' || c = '\r' || c.toNat = 11 || c.toNat = 12

/-- ASCII digit test. -/
def isDig (c : Char) : Bool := 48 ≤ c.toNat && c.toNat ≤ 57

/-- Numeric value of an ASCII digit. -/
def digitVal (c : Char) : Nat := c.toNat - 48

/-- Take the longest run of digits and underscores from the front. -/
def takeNumChars : List Char → List Char × List Char
  | [] => ([], [])
  | c :: cs =>
    if isDig c || c = '_' then
      let p := takeNumChars cs
      (c :: p.1, p.2)
    else ([], c :: cs)

/-- No two adjacent underscores. -/
def noDoubleUS : List Char → Bool
  | a :: b :: t => !(a = '_' && b = '_') && noDoubleUS (b :: t)
  | _ => true

/-- A digit group is valid when nonempty, bounded by digits, and free of
double underscores (CPython underscore rule). -/
def validGroup (l : List Char) : Bool :=
  match l, l.getLast? with
  | a :: _, some z => isDig a && isDig z && noDoubleUS l
  | _, _ => false

/-- Digits of a group, underscores removed. -/
def groupDigits (l : List Char) : List Char := l.filter isDig

/-- Natural number denoted by a digit list. -/
def digitsToNat (l : List Char) : Nat :=
  l.foldl (fun acc c => acc * 10 + digitVal c) 0

/-- Scale a rational by a signed power of ten. -/
def applyExp (q : ℚ) (e : Int) : ℚ :=
  if 0 ≤ e then q * (10 : ℚ) ^ e.toNat else q / (10 : ℚ) ^ (-e).toNat

/-- Exponent digits after the optional sign; must consume the rest. -/
def expDigits (l : List Char) (pos : Bool) : Option Int :=
  let p := takeNumChars l
  if validGroup p.1 && p.2.isEmpty then
    let n : Int := digitsToNat (groupDigits p.1)
    some (if pos then n else -n)
  else none

/-- Optional exponent part, which must end the string. -/
def parseExp : List Char → Option Int
  | [] => some 0
  | c :: rest =>
    if c = 'e' || c = 'E' then
      match rest with
      | '+' :: r2 => expDigits r2 true
      | '-' :: r2 => expDigits r2 false
      | r2 => expDigits r2 true
    else none

/-- Mantissa: integer digits, optional point, optional fraction digits;
at least one digit overall.  Returns the exact value and the unconsumed
tail. -/
def parseMantissa (cs : List Char) : Option (ℚ × List Char) :=
  let ip := takeNumChars cs
  if !validGroup ip.1 && !ip.1.isEmpty then none
  else
    match ip.2 with
    | '.' :: r2 =>
      let fp := takeNumChars r2
      if !validGroup fp.1 && !fp.1.isEmpty then none
      else if ip.1.isEmpty && fp.1.isEmpty then none
      else
        let iD := groupDigits ip.1
        let fD := groupDigits fp.1
        some (((digitsToNat (iD ++ fD) : ℚ)) / (10 : ℚ) ^ fD.length, fp.2)
    | r2 =>
      if ip.1.isEmpty then none
      else some ((digitsToNat (groupDigits ip.1) : ℚ), r2)

/-- ASCII lower-casing for the case-insensitive keywords. -/
def lowerAscii (c : Char) : Char :=
  if 65 ≤ c.toNat && c.toNat ≤ 90 then Char.ofNat (c.toNat + 32) else c

/-- Body of the float() grammar after the sign has been taken. -/
def parseUnsigned (neg : Bool) (cs : List Char) : Option PyFloat :=
  let low := cs.map lowerAscii
  if low = ['i', 'n', 'f'] || low = ['i', 'n', 'f', 'i', 'n', 'i', 't', 'y'] then
    some (if neg then .negInf else .inf)
  else if low = ['n', 'a', 'n'] then some .nan
  else
    match parseMantissa cs with
    | none => none
    | some (q, rest) =>
      match parseExp rest with
      | none => none
      | some e =>
        let v := applyExp q e
        some (.finite (if neg then -v else v))

/-- Strip ASCII whitespace from both ends. -/
def trimWS (l : List Char) : List Char :=
  ((l.dropWhile isWS).reverse.dropWhile isWS).reverse

/-- CPython float() on a string: whitespace, optional sign, keyword or
decimal literal.  none models ValueError. -/
def pyParseFloat (s : String) : Option PyFloat :=
  match trimWS s.data with
  | '+' :: rest => parseUnsigned false rest
  | '-' :: rest => parseUnsigned true rest
  | rest => parseUnsigned false rest

/-- CPython float() on a raw value: numbers pass through, strings are
parsed, None and other objects raise TypeError (modelled as none). -/
def pyFloatOf : Raw → Option PyFloat
  | .num x => some x
  | .str s => pyParseFloat s
  | .pynone => none
  | .other => none

/-- Diagnostics the scripts emit to the log or stderr, by source site. -/
inductive Diag where
  | invalidRow (rev prof : Raw)
  | insufficientColumns (lineNum : Nat)
  | utf8Fallback
  | emptyJsonData
  | formatDrift (found : List String)
  | readCsvFailed
  | invalidJsonFile
  | readJsonFailed
  | unsupportedExtension
  | removedDuplicates (n : Nat)
  | zeroRevenueSkipped (profit : PyFloat)
  | invalidDataPlain (rev prof : Raw)
deriving DecidableEq, Repr

/-- Result of an I/O action: the value read, or an OSError-like failure. -/
inductive ReadResult (α : Type) where
  | ok (v : α)
  | err
deriving DecidableEq, Repr

/-- One element of the top-level JSON array: a keyed object, an ordered
array, or anything else (string, number, bool, null). -/
inductive JsonItem where
  | obj (fields : List (String × Raw))
  | arr (elems : List Raw)
  | other
deriving DecidableEq, Repr

/-- Python dict.get with default None. -/
def jsonGet (fields : List (String × Raw)) (k : String) : Raw :=
  match fields.lookup k with
  | some v => v
  | none => .pynone

/-- Python str.endswith. -/
def pyEndsWith (s suffix : String) : Bool := suffix.data.isSuffixOf s.data

end FinReport


/-! Embedding of report_generator_enterprise.py. -/

namespace FinReport

namespace Enterprise

/-- The frozen dataclass FinancialRecord(revenue, profit). -/
structure FinancialRecord where
  revenue : PyFloat
  profit : PyFloat
deriving DecidableEq, Repr

/-- The margin property: None when revenue == 0, else profit / revenue.
The guard is Python equality, the division is Python float division
(whose ZeroDivisionError case is unreachable under the guard). -/
def FinancialRecord.margin (r : FinancialRecord) : Option PyFloat :=
  if pyEq r.revenue (.finite 0) then none else pyDiv r.profit r.revenue

/-- validate_record: float() both raw values; on success build the
record, on ValueError/TypeError log a warning and return None. -/
def validate_record (raw_revenue raw_profit : Raw) :
    Option FinancialRecord × List Diag :=
  match pyFloatOf raw_revenue, pyFloatOf raw_profit with
  | some rev, some prof => (some ⟨rev, prof⟩, [])
  | _, _ => (none, [.invalidRow raw_revenue raw_profit])

/-- The row loop of stream_csv, starting at the given line number
(enumerate(reader, start=2) after the header was consumed): rows with
fewer than 2 columns are skipped with a warning, other rows go through
validate_record and are yielded on success. -/
def csvProcessRows : Nat → List (List Raw) → List FinancialRecord × List Diag
  | _, [] => ([], [])
  | lineNum, row :: rest =>
    let tail := csvProcessRows (lineNum + 1) rest
    match row with
    | a :: b :: _ =>
      match validate_record a b with
      | (some r, ds) => (r :: tail.1, ds ++ tail.2)
      | (none, ds) => (tail.1, ds ++ tail.2)
    | _ => (tail.1, .insufficientColumns lineNum :: tail.2)

/-- I/O behaviour of one run of the CSV reader: whether the probe open
and 1 KiB read succeed (and if so whether the chunk decodes as UTF-8),
and whether the subsequent full open and row iteration succeeds (and if
so which rows, header included, it produces). -/
structure CsvReadModel where
  probe : ReadResult Bool
  readRows : ReadResult (List (List Raw))

/-- The file encodings the script distinguishes. -/
inductive Encoding where
  | utf8
  | latin1
deriving DecidableEq, Repr

/-- detect_encoding: only UnicodeDecodeError is caught (falling back to
latin-1 with an info diagnostic); any other failure of the open or read
propagates to the caller as an exception (Except.error). -/
def detect_encoding (m : CsvReadModel) : Except Unit (Encoding × List Diag) :=
  match m.probe with
  | .err => .error ()
  | .ok true => .ok (.utf8, [])
  | .ok false => .ok (.latin1, [.utf8Fallback])

/-- What a source-reader generator does when fully consumed: yield a
record sequence with diagnostics, call sys.exit with a code after
logging, or escape with an uncaught exception. -/
inductive StreamOutcome where
  | records (recs : List FinancialRecord) (diags : List Diag)
  | fatalExit (code : Nat) (diags : List Diag)
  | uncaught
deriving DecidableEq, Repr

/-- stream_csv: detect_encoding runs outside the try block, so its
exceptions escape; inside the try block, the header row is dropped
unconditionally and rows are processed from line number 2; any failure
of the open or iteration is caught, logged as an error, and turned into
sys.exit(1). -/
def stream_csv (m : CsvReadModel) : StreamOutcome :=
  match detect_encoding m with
  | .error _ => .uncaught
  | .ok (_, encDiags) =>
    match m.readRows with
    | .err => .fatalExit 1 (encDiags ++ [.readCsvFailed])
    | .ok rows =>
      let p := csvProcessRows 2 (rows.drop 1)
      .records p.1 (encDiags ++ p.2)

/-- The per-item dispatch of stream_json: dicts are validated through the
configured keys (missing keys give None), lists of length at least 2 are
validated positionally, everything else is skipped silently (none). -/
def jsonItemStep (keyRev keyProf : String) : JsonItem → Option (Option FinancialRecord × List Diag)
  | .obj fields => some (validate_record (jsonGet fields keyRev) (jsonGet fields keyProf))
  | .arr (a :: b :: _) => some (validate_record a b)
  | _ => none

/-- The item loop of stream_json. -/
def jsonProcessItems (keyRev keyProf : String) : List JsonItem → List FinancialRecord × List Diag
  | [] => ([], [])
  | it :: rest =>
    let tail := jsonProcessItems keyRev keyProf rest
    match jsonItemStep keyRev keyProf it with
    | some (some r, ds) => (r :: tail.1, ds ++ tail.2)
    | some (none, ds) => (tail.1, ds ++ tail.2)
    | none => tail

/-- Result of reading and parsing the JSON document. -/
inductive JsonTop where
  | list (items : List JsonItem)
  | nonList
deriving DecidableEq, Repr

/-- I/O and parse behaviour of one run of the JSON reader. -/
inductive JsonReadResult where
  | ioErr
  | parseErr
  | ok (top : JsonTop)
deriving DecidableEq, Repr

/-- The schema-drift check: if the first item is a dict lacking either
configured key, a critical diagnostic lists the keys found. -/
def formatDriftDiags (keyRev keyProf : String) : List JsonItem → List Diag
  | .obj fields :: _ =>
    if (fields.lookup keyRev).isNone || (fields.lookup keyProf).isNone then
      [.formatDrift (fields.map (fun f => f.1))]
    else []
  | _ => []

/-- stream_json: JSONDecodeError and any other exception are fatal
(logged error then sys.exit(1)); a non-list document gives an empty item
collection with a warning; drift is warned about but not fatal. -/
def stream_json (keyRev keyProf : String) (m : JsonReadResult) : StreamOutcome :=
  match m with
  | .ioErr => .fatalExit 1 [.readJsonFailed]
  | .parseErr => .fatalExit 1 [.invalidJsonFile]
  | .ok .nonList => .records [] [.emptyJsonData]
  | .ok (.list items) =>
    let emptyDiags := if items.isEmpty then [Diag.emptyJsonData] else []
    let drift := formatDriftDiags keyRev keyProf items
    let p := jsonProcessItems keyRev keyProf items
    .records p.1 (emptyDiags ++ drift ++ p.2)

/-- Python record equality, as used by the seen-set of pipeline_dedupe:
dataclass equality is fieldwise float equality (so records with a nan
field never compare equal, not even to an identically-built record). -/
def recEq (a b : FinancialRecord) : Bool :=
  pyEq a.revenue b.revenue && pyEq a.profit b.profit

/-- The loop of pipeline_dedupe: seen starts empty, a record equal to a
seen one is skipped, otherwise it is added to seen and yielded. -/
def dedupeRecs (seen : List FinancialRecord) : List FinancialRecord → List FinancialRecord
  | [] => []
  | r :: rs =>
    if seen.any (fun s => recEq s r) then dedupeRecs seen rs
    else r :: dedupeRecs (r :: seen) rs

/-- pipeline_dedupe, projected to the record sequence it yields.  The
summary diagnostic counts one skip per dropped record, so the count it
would log is the input length minus the output length. -/
def pipeline_dedupe (l : List FinancialRecord) : List FinancialRecord :=
  dedupeRecs [] l

/-- Deduplication as the spec words it (second definition, for the
refinement claim): a record is kept exactly when no structurally-equal
record occurs anywhere earlier in the input, the earlier occurrences
being all of them, kept or dropped. -/
def dedupeSpecAux (processed : List FinancialRecord) : List FinancialRecord → List FinancialRecord
  | [] => []
  | r :: rs =>
    if processed.any (fun s => recEq s r) then dedupeSpecAux (processed ++ [r]) rs
    else r :: dedupeSpecAux (processed ++ [r]) rs

/-- Spec-worded deduplication over the whole input. -/
def dedupeSpec (l : List FinancialRecord) : List FinancialRecord :=
  dedupeSpecAux [] l

/-- One stdout line of the enterprise report. -/
inductive OutLine where
  | banner
  | tableHeader
  | tableSep
  | row (r : FinancialRecord)
  | summary (count : Nat) (totalRev : PyFloat)
deriving DecidableEq, Repr

/-- How the process ends. -/
inductive ExitKind where
  | normal
  | fatalExit (code : Nat)
  | uncaughtCrash
deriving DecidableEq, Repr

/-- Process exit status: sys.exit(c) gives c, an uncaught exception makes
CPython exit with status 1. -/
def exitCodeOf : ExitKind → Nat
  | .normal => 0
  | .fatalExit c => c
  | .uncaughtCrash => 1

/-- Observable result of one enterprise run: stdout lines in order,
diagnostics, and how the process ended. -/
structure EnterpriseRun where
  stdoutTrace : List OutLine
  diags : List Diag
  exit : ExitKind
deriving DecidableEq, Repr

/-- Running revenue total of format_table. -/
def totalRevenue (recs : List FinancialRecord) : PyFloat :=
  recs.foldl (fun acc r => pyAdd acc r.revenue) (.finite 0)

/-- Drive the lazy pipeline the way main and format_table do: the banner
and the table header and separator are printed before the first record is
pulled, so a stream that dies on its first pull still leaves them on
stdout.  The dedupe filter sits between the source and the printer; its
duplicate count (one increment per dropped record) is the input length
minus the yielded length. -/
def runStream (outcome : StreamOutcome) : EnterpriseRun :=
  match outcome with
  | .records recs ds =>
    let uniq := pipeline_dedupe recs
    let dupCount := recs.length - uniq.length
    let dupDiags := if dupCount > 0 then [Diag.removedDuplicates dupCount] else []
    { stdoutTrace := [.banner, .tableHeader, .tableSep] ++ uniq.map .row
        ++ [.tableSep, .summary uniq.length (totalRevenue uniq)],
      diags := ds ++ dupDiags,
      exit := .normal }
  | .fatalExit c ds =>
    { stdoutTrace := [.banner, .tableHeader, .tableSep], diags := ds, exit := .fatalExit c }
  | .uncaught =>
    { stdoutTrace := [.banner, .tableHeader, .tableSep], diags := [], exit := .uncaughtCrash }

/-- The enterprise main: dispatch on the (case-sensitive) file extension,
an unsupported extension is logged as an error and exits 1 before
anything is printed to stdout. -/
def main (fname keyRev keyProf : String) (csvM : CsvReadModel) (jsonM : JsonReadResult) :
    EnterpriseRun :=
  if pyEndsWith fname (".csv") then runStream (stream_csv csvM)
  else if pyEndsWith fname (".json") then runStream (stream_json keyRev keyProf jsonM)
  else { stdoutTrace := [], diags := [.unsupportedExtension], exit := .fatalExit 1 }

end Enterprise

end FinReport

/-! Embedding of report_generator_plain.py. -/

namespace FinReport

namespace Plain

/-- validate_financial_data of the plain variant: float() both values,
then reject rows whose revenue equals 0 with a stderr warning; parse
failures print an error.  Note the zero check runs only after both
conversions succeeded. -/
def validate_financial_data (revenue profit : Raw) :
    Option (PyFloat × PyFloat) × List Diag :=
  match pyFloatOf revenue, pyFloatOf profit with
  | some rev, some prof =>
    if pyEq rev (.finite 0) then (none, [.zeroRevenueSkipped prof])
    else (some (rev, prof), [])
  | _, _ => (none, [.invalidDataPlain revenue profit])

/-- The original hardcoded dataset. -/
def load_data_from_hardcoded : List (PyFloat × PyFloat) :=
  [(.finite 1000, .finite 10), (.finite 2000, .finite 17),
   (.finite 2500, .finite 170), (.finite 2500, .finite (-170))]

/-- The row loop of load_data_from_csv: rows with fewer than 2 columns
are skipped silently (the plain variant has no diagnostic for them),
other rows are validated and appended on success. -/
def csvRows : List (List Raw) → List (PyFloat × PyFloat) × List Diag
  | [] => ([], [])
  | row :: rest =>
    let tail := csvRows rest
    match row with
    | a :: b :: _ =>
      match validate_financial_data a b with
      | (some v, ds) => (v :: tail.1, ds ++ tail.2)
      | (none, ds) => (tail.1, ds ++ tail.2)
    | _ => tail

/-- load_data_from_csv: the header row is dropped unconditionally; any
exception while opening or reading prints an error and returns the empty
list (NOT fatal: the caller goes on to print an empty report and the
process exits 0). -/
def load_data_from_csv (io : ReadResult (List (List Raw))) :
    List (PyFloat × PyFloat) × List Diag :=
  match io with
  | .err => ([], [.readCsvFailed])
  | .ok rows => csvRows (rows.drop 1)

/-- The item loop of load_data_from_json, with the fixed keys
revenue/profit. -/
def jsonItems : List JsonItem → List (PyFloat × PyFloat) × List Diag
  | [] => ([], [])
  | it :: rest =>
    let tail := jsonItems rest
    match it with
    | .obj fields =>
      match validate_financial_data (jsonGet fields ("revenue")) (jsonGet fields ("profit")) with
      | (some v, ds) => (v :: tail.1, ds ++ tail.2)
      | (none, ds) => (tail.1, ds ++ tail.2)
    | .arr (a :: b :: _) =>
      match validate_financial_data a b with
      | (some v, ds) => (v :: tail.1, ds ++ tail.2)
      | (none, ds) => (tail.1, ds ++ tail.2)
    | _ => tail

/-- load_data_from_json: any exception (I/O or JSON parse) prints an
error and returns the empty list, again not fatal. -/
def load_data_from_json (io : ReadResult (List JsonItem)) :
    List (PyFloat × PyFloat) × List Diag :=
  match io with
  | .err => ([], [.readJsonFailed])
  | .ok items => jsonItems items

/-- What the plain presentation step prints. -/
inductive PlainOutput where
  | table (rows : List (PyFloat × PyFloat × Option PyFloat))
  | emptyNotice
  | unsupportedMsg
deriving DecidableEq, Repr

/-- The rows format_and_print_table prints: each pair with its percent,
where ZeroDivisionError is caught per row and shown as N/A (none). -/
def tableRows (data : List (PyFloat × PyFloat)) :
    List (PyFloat × PyFloat × Option PyFloat) :=
  data.map (fun p => (p.1, p.2, pyDiv p.2 p.1))

/-- format_and_print_table: empty data prints the no-valid-data notice,
otherwise the table. -/
def format_and_print_table (data : List (PyFloat × PyFloat)) : PlainOutput :=
  if data.isEmpty then .emptyNotice else .table (tableRows data)

/-- Observable result of one plain run. -/
structure PlainRun where
  data : List (PyFloat × PyFloat)
  output : PlainOutput
  exitCode : Nat
deriving DecidableEq, Repr

/-- The plain main: with no file argument the hardcoded dataset is used;
with a file, dispatch on extension, and an unsupported extension prints a
message and returns normally (exit status 0, no table).  Every path ends
with exit status 0. -/
def main (fname : Option String) (csvRead : ReadResult (List (List Raw)))
    (jsonRead : ReadResult (List JsonItem)) : PlainRun :=
  match fname with
  | none =>
    let d := load_data_from_hardcoded
    ⟨d, format_and_print_table d, 0⟩
  | some f =>
    if pyEndsWith f (".csv") then
      let d := (load_data_from_csv csvRead).1
      ⟨d, format_and_print_table d, 0⟩
    else if pyEndsWith f (".json") then
      let d := (load_data_from_json jsonRead).1
      ⟨d, format_and_print_table d, 0⟩
    else ⟨[], .unsupportedMsg, 0⟩

end Plain

/-! Embedding of report_generator_tabulate.py. -/

namespace Tabulate

/-- validate_financial_data of the tabulate variant: float() both values;
no zero-revenue check (zero revenue is valid here). -/
def validate_financial_data (revenue profit : Raw) :
    Option (PyFloat × PyFloat) × List Diag :=
  match pyFloatOf revenue, pyFloatOf profit with
  | some rev, some prof => (some (rev, prof), [])
  | _, _ => (none, [.invalidDataPlain revenue profit])

/-- The original hardcoded dataset (identical to the plain variant). -/
def load_data_from_hardcoded : List (PyFloat × PyFloat) :=
  [(.finite 1000, .finite 10), (.finite 2000, .finite 17),
   (.finite 2500, .finite 170), (.finite 2500, .finite (-170))]

/-- The processing loop of the tabulate main: zero revenue becomes an
N/A row (none), otherwise the percent is computed. -/
def processData (data : List (PyFloat × PyFloat)) :
    List (PyFloat × PyFloat × Option PyFloat) :=
  data.map (fun p =>
    if pyEq p.1 (.finite 0) then (p.1, p.2, none) else (p.1, p.2, pyDiv p.2 p.1))

/-- CSV/JSON loading in the tabulate variant mirrors the plain variant
but validates with the tabulate validator (no zero-revenue rejection). -/
def csvRows : List (List Raw) → List (PyFloat × PyFloat) × List Diag
  | [] => ([], [])
  | row :: rest =>
    let tail := csvRows rest
    match row with
    | a :: b :: _ =>
      match validate_financial_data a b with
      | (some v, ds) => (v :: tail.1, ds ++ tail.2)
      | (none, ds) => (tail.1, ds ++ tail.2)
    | _ => tail

/-- load_data_from_csv of the tabulate variant: header dropped, errors
print a message and give the empty list. -/
def load_data_from_csv (io : ReadResult (List (List Raw))) :
    List (PyFloat × PyFloat) × List Diag :=
  match io with
  | .err => ([], [.readCsvFailed])
  | .ok rows => csvRows (rows.drop 1)

/-- What the tabulate presentation step prints. -/
inductive TabOutput where
  | table (rows : List (PyFloat × PyFloat × Option PyFloat))
  | emptyNotice
  | unsupportedMsg
deriving DecidableEq, Repr

/-- Observable result of one tabulate run. -/
structure TabRun where
  data : List (PyFloat × PyFloat)
  output : TabOutput
  exitCode : Nat
deriving DecidableEq, Repr

/-- The tabulate main with no file argument (the path the hardcoded
dataset takes): load, process, and print; the empty check happens on the
processed rows. -/
def mainNoFile : TabRun :=
  let d := load_data_from_hardcoded
  let processed := processData d
  if processed.isEmpty then ⟨d, .emptyNotice, 0⟩ else ⟨d, .table processed, 0⟩

end Tabulate

end FinReport

/-! Sanity checks of the float() embedding on concrete strings, and
helper lemmas shared by the claim theorems. -/

namespace FinReport

example : pyParseFloat ("1.5") = some (.finite (3 / 2)) := by with_unfolding_all rfl
example : pyParseFloat ("  -2e3 ") = some (.finite (-2000)) := by with_unfolding_all rfl
example : pyParseFloat ("inf") = some .inf := by with_unfolding_all rfl
example : pyParseFloat ("-Infinity") = some .negInf := by with_unfolding_all rfl
example : pyParseFloat ("NaN") = some .nan := by with_unfolding_all rfl
example : pyParseFloat ("1_000.2_5") = some (.finite (100025 / 100)) := by with_unfolding_all rfl
example : pyParseFloat ("1__0") = none := by with_unfolding_all rfl
example : pyParseFloat ("_1") = none := by with_unfolding_all rfl
example : pyParseFloat ("1_") = none := by with_unfolding_all rfl
example : pyParseFloat (".") = none := by with_unfolding_all rfl
example : pyParseFloat ("") = none := by with_unfolding_all rfl
example : pyParseFloat ("1.") = some (.finite 1) := by with_unfolding_all rfl
example : pyParseFloat (".5e1") = some (.finite 5) := by with_unfolding_all rfl
example : pyParseFloat ("abc") = none := by with_unfolding_all rfl
example : pyParseFloat ("1e") = none := by with_unfolding_all rfl
example : pyParseFloat ("-0.0") = some (.finite 0) := by with_unfolding_all rfl

theorem pyEq_eq_true_iff (x y : PyFloat) :
    pyEq x y = true ↔ (x = y ∧ x ≠ .nan) := by
  cases x <;> cases y <;> simp [pyEq]

theorem pyEq_symm (x y : PyFloat) : pyEq x y = pyEq y x := by
  cases x <;> cases y <;> simp [pyEq]
  exact ⟨fun h => h.symm, fun h => h.symm⟩

theorem pyEq_zero_iff (x : PyFloat) :
    pyEq x (.finite 0) = true ↔ x = .finite 0 := by
  rw [pyEq_eq_true_iff]
  constructor
  · exact fun h => h.1
  · rintro rfl
    exact ⟨rfl, by simp⟩

theorem pyDiv_isSome_of_ne_zero (a b : PyFloat) (h : b ≠ .finite 0) :
    ∃ m, pyDiv a b = some m := by
  cases b with
  | finite r =>
    have hr : ¬ r = 0 := fun hh => h (by rw [hh])
    cases a <;> simp [pyDiv, hr]
  | inf => cases a <;> simp [pyDiv]
  | negInf => cases a <;> simp [pyDiv]
  | nan => simp [pyDiv]

namespace Enterprise

theorem recEq_eq_true_iff (a b : FinancialRecord) :
    recEq a b = true ↔ (a = b ∧ a.revenue ≠ .nan ∧ a.profit ≠ .nan) := by
  cases a with
  | mk ar ap =>
    cases b with
    | mk br bp =>
      simp only [recEq, Bool.and_eq_true, pyEq_eq_true_iff, FinancialRecord.mk.injEq]
      tauto

theorem recEq_symm (a b : FinancialRecord) : recEq a b = recEq b a := by
  unfold recEq
  rw [pyEq_symm, pyEq_symm a.profit]

theorem recEq_trans {a b c : FinancialRecord} (h1 : recEq a b = true)
    (h2 : recEq b c = true) : recEq a c = true := by
  rw [recEq_eq_true_iff] at h1 h2 ⊢
  exact ⟨h1.1.trans h2.1, h1.2⟩

theorem validate_record_some_diag {a b : Raw} {r : FinancialRecord} {ds : List Diag}
    (h : validate_record a b = (some r, ds)) :
    ds = [] ∧ pyFloatOf a = some r.revenue ∧ pyFloatOf b = some r.profit := by
  cases ha : pyFloatOf a with
  | none =>
    cases hb : pyFloatOf b with
    | none => simp [validate_record, ha, hb] at h
    | some y => simp [validate_record, ha, hb] at h
  | some x =>
    cases hb : pyFloatOf b with
    | none => simp [validate_record, ha, hb] at h
    | some y =>
      have hv : validate_record a b = (some ⟨x, y⟩, []) := by
        simp [validate_record, ha, hb]
      rw [hv] at h
      have hr : FinancialRecord.mk x y = r := Option.some.inj (congrArg Prod.fst h)
      subst hr
      exact ⟨(congrArg Prod.snd h).symm, rfl, rfl⟩

end Enterprise

end FinReport

/-! Deduplication: equivalence of the seen-set loop with the spec's
description, order preservation, and idempotence. -/

namespace FinReport

namespace Enterprise

theorem seen_any_extend {seen : List FinancialRecord} {r x : FinancialRecord}
    (hg : seen.any (fun s => recEq s r) = true) (hx : recEq r x = true) :
    seen.any (fun s => recEq s x) = true := by
  rw [List.any_eq_true] at hg ⊢
  obtain ⟨s, hs, hsr⟩ := hg
  exact ⟨s, hs, recEq_trans hsr hx⟩

theorem dedupeRecs_eq_specAux :
    ∀ (l seen processed : List FinancialRecord),
      (∀ x, seen.any (fun s => recEq s x) = processed.any (fun s => recEq s x)) →
      dedupeRecs seen l = dedupeSpecAux processed l := by
  intro l
  induction l with
  | nil => intro seen processed h; rfl
  | cons r rs ih =>
    intro seen processed h
    by_cases hg : seen.any (fun s => recEq s r) = true
    · have hg2 : processed.any (fun s => recEq s r) = true := (h r) ▸ hg
      simp only [dedupeRecs, dedupeSpecAux, hg, hg2, if_true]
      refine ih seen (processed ++ [r]) ?_
      intro x
      rw [List.any_append, ← h x]
      cases hx : recEq r x with
      | false => simp [List.any_cons, hx]
      | true => simp [List.any_cons, hx, seen_any_extend hg hx]
    · have hg' : seen.any (fun s => recEq s r) = false := Bool.eq_false_iff.mpr hg
      have hg2 : processed.any (fun s => recEq s r) = false := (h r) ▸ hg'
      simp only [dedupeRecs, dedupeSpecAux, hg', hg2, Bool.false_eq_true, if_false]
      congr 1
      refine ih (r :: seen) (processed ++ [r]) ?_
      intro x
      rw [List.any_append, ← h x]
      simp [List.any_cons, Bool.or_comm]

theorem dedupeRecs_sublist :
    ∀ (l seen : List FinancialRecord), (dedupeRecs seen l).Sublist l := by
  intro l
  induction l with
  | nil => intro seen; simp [dedupeRecs]
  | cons r rs ih =>
    intro seen
    by_cases hg : seen.any (fun s => recEq s r) = true
    · simp only [dedupeRecs, hg, if_true]
      exact (ih seen).cons r
    · have hg' : seen.any (fun s => recEq s r) = false := Bool.eq_false_iff.mpr hg
      simp only [dedupeRecs, hg', Bool.false_eq_true, if_false]
      exact (ih (r :: seen)).cons₂ r

theorem dedupeRecs_not_seen :
    ∀ (l seen : List FinancialRecord) (r : FinancialRecord),
      r ∈ dedupeRecs seen l → seen.any (fun s => recEq s r) = false := by
  intro l
  induction l with
  | nil => intro seen r h; simp [dedupeRecs] at h
  | cons x xs ih =>
    intro seen r h
    by_cases hg : seen.any (fun s => recEq s x) = true
    · simp only [dedupeRecs, hg, if_true] at h
      exact ih seen r h
    · have hg' : seen.any (fun s => recEq s x) = false := Bool.eq_false_iff.mpr hg
      simp only [dedupeRecs, hg', Bool.false_eq_true, if_false, List.mem_cons] at h
      rcases h with h | h
      · subst h; exact hg'
      · have hfull := ih (x :: seen) r h
        simp only [List.any_cons, Bool.or_eq_false_iff] at hfull
        exact hfull.2

theorem dedupeRecs_pairwise :
    ∀ (l seen : List FinancialRecord),
      (dedupeRecs seen l).Pairwise (fun a b => recEq a b = false) := by
  intro l
  induction l with
  | nil => intro seen; simp [dedupeRecs]
  | cons x xs ih =>
    intro seen
    by_cases hg : seen.any (fun s => recEq s x) = true
    · simp only [dedupeRecs, hg, if_true]
      exact ih seen
    · have hg' : seen.any (fun s => recEq s x) = false := Bool.eq_false_iff.mpr hg
      simp only [dedupeRecs, hg', Bool.false_eq_true, if_false]
      refine List.Pairwise.cons ?_ (ih (x :: seen))
      intro b hb
      have hfull := dedupeRecs_not_seen xs (x :: seen) b hb
      simp only [List.any_cons, Bool.or_eq_false_iff] at hfull
      exact hfull.1

theorem dedupeRecs_fixed :
    ∀ (m seen : List FinancialRecord),
      (∀ r ∈ m, seen.any (fun s => recEq s r) = false) →
      m.Pairwise (fun a b => recEq a b = false) →
      dedupeRecs seen m = m := by
  intro m
  induction m with
  | nil => intro seen _ _; rfl
  | cons x xs ih =>
    intro seen hseen hpw
    have hx : seen.any (fun s => recEq s x) = false := hseen x (List.mem_cons_self x xs)
    rw [List.pairwise_cons] at hpw
    simp only [dedupeRecs, hx, Bool.false_eq_true, if_false]
    congr 1
    refine ih (x :: seen) ?_ hpw.2
    intro r hr
    simp only [List.any_cons, Bool.or_eq_false_iff]
    exact ⟨hpw.1 r hr, hseen r (List.mem_cons_of_mem x hr)⟩

end Enterprise

/-- C2 (amended): pipeline_dedupe keeps exactly the records that are not
Python-equal (fieldwise float ==) to any earlier record of the input, in
input order (its output is a sublist of the input).  Python record
equality agrees with structural equality exactly on records free of nan
fields, so on nan-free inputs the claim holds as stated; a record whose
nan fields repeat an earlier record is NOT removed (see the
counterexample).  The spec's own example input is also checked. -/
theorem c2_dedupe_amended :
    (∀ l, Enterprise.pipeline_dedupe l = Enterprise.dedupeSpec l) ∧
    (∀ l, (Enterprise.pipeline_dedupe l).Sublist l) ∧
    (∀ a b : Enterprise.FinancialRecord,
       Enterprise.recEq a b = true ↔ (a = b ∧ a.revenue ≠ .nan ∧ a.profit ≠ .nan)) ∧
    Enterprise.pipeline_dedupe
        [⟨.finite 100, .finite 10⟩, ⟨.finite 200, .finite 20⟩, ⟨.finite 100, .finite 10⟩] =
      [⟨.finite 100, .finite 10⟩, ⟨.finite 200, .finite 20⟩] :=
  ⟨fun l => Enterprise.dedupeRecs_eq_specAux l [] [] (fun _ => rfl),
   fun l => Enterprise.dedupeRecs_sublist l [],
   Enterprise.recEq_eq_true_iff,
   by with_unfolding_all rfl⟩

/-- C2 counterexample: the two input records are structurally equal (they
are the very same value, fieldwise identical), yet pipeline_dedupe keeps
both, because the dataclass equality it relies on uses Python float ==,
under which nan differs from nan.  Such records do reach the filter:
validate_record builds one from the parseable string "nan".  So the
output is not the subsequence of first occurrences of structurally-equal
records. -/
theorem c2_dedupe_counterexample :
    Enterprise.pipeline_dedupe [⟨.nan, .finite 1⟩, ⟨.nan, .finite 1⟩] =
      [⟨.nan, .finite 1⟩, ⟨.nan, .finite 1⟩] ∧
    (Enterprise.validate_record (.str ("nan")) (.str ("1"))).1 = some ⟨.nan, .finite 1⟩ ∧
    Enterprise.recEq ⟨.nan, .finite 1⟩ ⟨.nan, .finite 1⟩ = false := by
  refine ⟨?_, ?_, ?_⟩ <;> with_unfolding_all rfl

/-- C6: the deduplication filter is idempotent: applying pipeline_dedupe
to its own output returns that output unchanged, element for element. -/
theorem c6_dedupe_idempotent (S : List Enterprise.FinancialRecord) :
    Enterprise.pipeline_dedupe (Enterprise.pipeline_dedupe S) =
      Enterprise.pipeline_dedupe S :=
  Enterprise.dedupeRecs_fixed _ [] (fun _ _ => rfl) (Enterprise.dedupeRecs_pairwise S [])

end FinReport

namespace FinReport

/-- C3: the margin property is None exactly when the record's revenue
equals zero (the Python == 0 guard, which only the value 0.0 satisfies);
for every other revenue the margin is defined and equals profit divided
by revenue exactly — the code returns the bare quotient with no rounding
(division is exact in the rational idealization of floats). -/
theorem c3_margin (r : Enterprise.FinancialRecord) :
    (r.margin = none ↔ r.revenue = .finite 0) ∧
    (r.revenue ≠ .finite 0 →
       r.margin = pyDiv r.profit r.revenue ∧ ∃ m, r.margin = some m) := by
  by_cases hz : r.revenue = PyFloat.finite 0
  · have ht : pyEq r.revenue (.finite 0) = true := (pyEq_zero_iff _).mpr hz
    have hm : r.margin = none := by simp [Enterprise.FinancialRecord.margin, ht]
    constructor
    · simp [hm, hz]
    · intro h; exact absurd hz h
  · have hf : pyEq r.revenue (.finite 0) = false :=
      Bool.eq_false_iff.mpr (fun hh => hz ((pyEq_zero_iff _).mp hh))
    obtain ⟨m, hm⟩ := pyDiv_isSome_of_ne_zero r.profit r.revenue hz
    constructor
    · simp [Enterprise.FinancialRecord.margin, hf, hm, hz]
    · intro _
      exact ⟨by simp [Enterprise.FinancialRecord.margin, hf],
             ⟨m, by simp [Enterprise.FinancialRecord.margin, hf, hm]⟩⟩

/-- C3 witness: a concrete record with revenue 2 and profit 1 has margin
exactly one half. -/
theorem c3_margin_witness :
    (Enterprise.FinancialRecord.mk (.finite 2) (.finite 1)).margin =
      pyDiv (.finite 1) (.finite 2) ∧
    (Enterprise.FinancialRecord.mk (.finite 2) (.finite 1)).margin =
      some (.finite (1 / 2)) := by
  have h := (c3_margin ⟨.finite 2, .finite 1⟩).2
    (by intro hh; injection hh with hq; norm_num at hq)
  exact ⟨h.1, by rw [h.1]; with_unfolding_all rfl⟩

/-- C9: the CSV readers of the enterprise and plain variants drop exactly
the first row, unconditionally: on a successfully read file with rows
hdr :: rows the yielded records are exactly those of the row loop applied
to rows, whatever hdr contains; concretely, a file whose first row is a
valid data row (1, 2) followed by (100, 10) and (200, 20) yields exactly
the two records (100, 10) and (200, 20) in both variants. -/
theorem c9_header_drop :
    (∀ (probeOk : Bool) (hdr : List Raw) (rows : List (List Raw)),
       Enterprise.stream_csv ⟨.ok probeOk, .ok (hdr :: rows)⟩ =
         .records (Enterprise.csvProcessRows 2 rows).1
           ((if probeOk then [] else [Diag.utf8Fallback]) ++
             (Enterprise.csvProcessRows 2 rows).2)) ∧
    (∀ (hdr : List Raw) (rows : List (List Raw)),
       Plain.load_data_from_csv (.ok (hdr :: rows)) = Plain.csvRows rows) ∧
    (Enterprise.stream_csv
        ⟨.ok true, .ok [[.str ("1"), .str ("2")], [.str ("100"), .str ("10")],
                        [.str ("200"), .str ("20")]]⟩ =
      .records [⟨.finite 100, .finite 10⟩, ⟨.finite 200, .finite 20⟩] []) ∧
    (Plain.load_data_from_csv
        (.ok [[.str ("1"), .str ("2")], [.str ("100"), .str ("10")],
              [.str ("200"), .str ("20")]]) =
      ([(.finite 100, .finite 10), (.finite 200, .finite 20)], [])) := by
  refine ⟨?_, ?_, ?_, ?_⟩
  · intro probeOk hdr rows
    cases probeOk <;> rfl
  · intro hdr rows
    rfl
  · with_unfolding_all rfl
  · with_unfolding_all rfl

/-- C10: invoked with no file argument, the plain and tabulate variants
do not fail: they use the fixed built-in dataset of exactly the four
records (1000, 10), (2000, 17), (2500, 170), (2500, -170) and render the
report table from it (margins 1 percent, 17/2000, 6.8 percent and -6.8
percent respectively). -/
theorem c10_hardcoded_default :
    (∀ csvRead jsonRead, Plain.main none csvRead jsonRead =
       ⟨Plain.load_data_from_hardcoded,
        .table (Plain.tableRows Plain.load_data_from_hardcoded), 0⟩) ∧
    Plain.load_data_from_hardcoded =
      [(.finite 1000, .finite 10), (.finite 2000, .finite 17),
       (.finite 2500, .finite 170), (.finite 2500, .finite (-170))] ∧
    Plain.load_data_from_hardcoded.length = 4 ∧
    Plain.tableRows Plain.load_data_from_hardcoded =
      [(.finite 1000, .finite 10, some (.finite (1 / 100))),
       (.finite 2000, .finite 17, some (.finite (17 / 2000))),
       (.finite 2500, .finite 170, some (.finite (17 / 250))),
       (.finite 2500, .finite (-170), some (.finite (-17 / 250)))] ∧
    Tabulate.mainNoFile =
      ⟨Tabulate.load_data_from_hardcoded,
       .table (Tabulate.processData Tabulate.load_data_from_hardcoded), 0⟩ ∧
    Tabulate.processData Tabulate.load_data_from_hardcoded =
      [(.finite 1000, .finite 10, some (.finite (1 / 100))),
       (.finite 2000, .finite 17, some (.finite (17 / 2000))),
       (.finite 2500, .finite 170, some (.finite (17 / 250))),
       (.finite 2500, .finite (-170), some (.finite (-17 / 250)))] := by
  refine ⟨fun _ _ => rfl, rfl, rfl, ?_, ?_, ?_⟩
  · with_unfolding_all rfl
  · with_unfolding_all rfl
  · with_unfolding_all rfl

end FinReport

namespace FinReport

namespace Enterprise

theorem jsonItemStep_some_diag {kR kP : String} {it : JsonItem}
    {o : Option FinancialRecord} {ds : List Diag}
    (h : jsonItemStep kR kP it = some (o, ds)) :
    ∃ a b, validate_record a b = (o, ds) := by
  cases it with
  | obj fields => exact ⟨_, _, Option.some.inj h⟩
  | arr elems =>
    match elems with
    | [] => simp [jsonItemStep] at h
    | [a] => simp [jsonItemStep] at h
    | a :: b :: rest => exact ⟨a, b, Option.some.inj h⟩
  | other => simp [jsonItemStep] at h

end Enterprise

/-- C1 counterexample: the string "inf" is accepted by Python float()
although it is not a finite number, so the raw pair ("inf", "1") is not a
pair of finite parses; the claim then requires no record and a
diagnostic, but validate_record returns a record with a non-finite
revenue field and no diagnostic, and the CSV row loop yields that record
into the pipeline. -/
theorem c1_validator_counterexample :
    pyFloatOf (.str ("inf")) = some PyFloat.inf ∧
    PyFloat.inf.isFinite = false ∧
    Enterprise.validate_record (.str ("inf")) (.str ("1")) =
      (some ⟨PyFloat.inf, PyFloat.finite 1⟩, []) ∧
    (Enterprise.csvProcessRows 2 [[.str ("inf"), .str ("1")]]).1 =
      [⟨PyFloat.inf, PyFloat.finite 1⟩] := by
  refine ⟨?_, rfl, ?_, ?_⟩ <;> with_unfolding_all rfl

/-- C1 (amended): when BOTH raw values parse under Python float() —
finite or not, since float() also accepts inf/infinity/nan — the
validator returns a record carrying exactly the two parsed values and no
diagnostic; when either fails to parse (non-numeric string, None for a
missing field, or a non-coercible object) it returns no record and emits
exactly one diagnostic.  Consequently every record the CSV row loop
yields comes from a row with at least two columns whose first two fields
parse to the record's fields, and every record the JSON item loop yields
comes from an item that validates to it — parseable numeric fields
always, but finiteness is NOT guaranteed (see the counterexample). -/
theorem c1_validator_amended :
    (∀ (rr rp : Raw) (x y : PyFloat), pyFloatOf rr = some x → pyFloatOf rp = some y →
       Enterprise.validate_record rr rp = (some ⟨x, y⟩, [])) ∧
    (∀ rr rp : Raw, pyFloatOf rr = none ∨ pyFloatOf rp = none →
       Enterprise.validate_record rr rp = (none, [.invalidRow rr rp])) ∧
    (∀ (n : Nat) (rows : List (List Raw)) (r : Enterprise.FinancialRecord),
       r ∈ (Enterprise.csvProcessRows n rows).1 →
       ∃ row ∈ rows, ∃ a b rest, row = a :: b :: rest ∧
         pyFloatOf a = some r.revenue ∧ pyFloatOf b = some r.profit) ∧
    (∀ (kR kP : String) (items : List JsonItem) (r : Enterprise.FinancialRecord),
       r ∈ (Enterprise.jsonProcessItems kR kP items).1 →
       ∃ it ∈ items, Enterprise.jsonItemStep kR kP it = some (some r, [])) := by
  refine ⟨?_, ?_, ?_, ?_⟩
  · intro rr rp x y hx hy
    simp [Enterprise.validate_record, hx, hy]
  · intro rr rp h
    rcases h with h | h
    · cases hp : pyFloatOf rp <;> simp [Enterprise.validate_record, h, hp]
    · cases hr : pyFloatOf rr <;> simp [Enterprise.validate_record, h, hr]
  · intro n rows
    induction rows generalizing n with
    | nil => intro r h; simp [Enterprise.csvProcessRows] at h
    | cons row rest ih =>
      intro r h
      rcases row with - | ⟨a, row'⟩
      · have h' : r ∈ (Enterprise.csvProcessRows (n + 1) rest).1 := h
        obtain ⟨w, hw, hrest⟩ := ih (n + 1) r h'
        exact ⟨w, List.mem_cons_of_mem _ hw, hrest⟩
      rcases row' with - | ⟨b, rest'⟩
      · have h' : r ∈ (Enterprise.csvProcessRows (n + 1) rest).1 := h
        obtain ⟨w, hw, hrest⟩ := ih (n + 1) r h'
        exact ⟨w, List.mem_cons_of_mem _ hw, hrest⟩
      rcases hv : Enterprise.validate_record a b with ⟨o, ds⟩
      cases o with
      | some rec =>
        have hstep : (Enterprise.csvProcessRows n ((a :: b :: rest') :: rest)).1 =
            rec :: (Enterprise.csvProcessRows (n + 1) rest).1 := by
          simp [Enterprise.csvProcessRows, hv]
        rw [hstep] at h
        rcases List.mem_cons.mp h with h | h
        · obtain ⟨-, hpa, hpb⟩ := Enterprise.validate_record_some_diag hv
          subst h
          exact ⟨a :: b :: rest', List.mem_cons_self _ _, a, b, rest', rfl, hpa, hpb⟩
        · obtain ⟨w, hw, hrest⟩ := ih (n + 1) r h
          exact ⟨w, List.mem_cons_of_mem _ hw, hrest⟩
      | none =>
        have hstep : (Enterprise.csvProcessRows n ((a :: b :: rest') :: rest)).1 =
            (Enterprise.csvProcessRows (n + 1) rest).1 := by
          simp [Enterprise.csvProcessRows, hv]
        rw [hstep] at h
        obtain ⟨w, hw, hrest⟩ := ih (n + 1) r h
        exact ⟨w, List.mem_cons_of_mem _ hw, hrest⟩
  · intro kR kP items
    induction items with
    | nil => intro r h; simp [Enterprise.jsonProcessItems] at h
    | cons it rest ih =>
      intro r h
      cases hstep : Enterprise.jsonItemStep kR kP it with
      | none =>
        have h' : (Enterprise.jsonProcessItems kR kP (it :: rest)).1 =
            (Enterprise.jsonProcessItems kR kP rest).1 := by
          simp [Enterprise.jsonProcessItems, hstep]
        rw [h'] at h
        obtain ⟨w, hw, hrest⟩ := ih r h
        exact ⟨w, List.mem_cons_of_mem _ hw, hrest⟩
      | some pr =>
        rcases pr with ⟨o, ds⟩
        cases o with
        | some rec =>
          have h' : (Enterprise.jsonProcessItems kR kP (it :: rest)).1 =
              rec :: (Enterprise.jsonProcessItems kR kP rest).1 := by
            simp [Enterprise.jsonProcessItems, hstep]
          rw [h'] at h
          rcases List.mem_cons.mp h with h | h
          · obtain ⟨a, b, hv⟩ := Enterprise.jsonItemStep_some_diag hstep
            obtain ⟨hds, -, -⟩ := Enterprise.validate_record_some_diag hv
            subst hds
            subst h
            exact ⟨it, List.mem_cons_self _ _, hstep⟩
          · obtain ⟨w, hw, hrest⟩ := ih r h
            exact ⟨w, List.mem_cons_of_mem _ hw, hrest⟩
        | none =>
          have h' : (Enterprise.jsonProcessItems kR kP (it :: rest)).1 =
              (Enterprise.jsonProcessItems kR kP rest).1 := by
            simp [Enterprise.jsonProcessItems, hstep]
          rw [h'] at h
          obtain ⟨w, hw, hrest⟩ := ih r h
          exact ⟨w, List.mem_cons_of_mem _ hw, hrest⟩

/-- C1 witness: a concrete pair of parseable raw values goes through the
validator and comes out as the record of the parsed numbers. -/
theorem c1_validator_witness :
    Enterprise.validate_record (.str ("12.5")) (.num (.finite 3)) =
      (some ⟨.finite (25 / 2), .finite 3⟩, []) :=
  c1_validator_amended.1 _ _ _ _ (by with_unfolding_all rfl) rfl

end FinReport

namespace FinReport

/-- C5 counterexample: the plain variant's Record Validator (cited by the
claim) REJECTS a zero-revenue pair: on raw values "0" and "5" it returns
no record, emitting the zero-revenue warning, where the claim requires a
FinancialRecord to be returned. -/
theorem c5_zero_revenue_counterexample :
    Plain.validate_financial_data (.str ("0")) (.str ("5")) =
      (none, [.zeroRevenueSkipped (.finite 5)]) := by
  with_unfolding_all rfl

/-- C5 (amended): for any raw pair whose revenue parses to exactly zero
and whose profit parses, the ENTERPRISE validator accepts the pair and
returns the record, identically on its CSV and JSON ingestion paths; the
PLAIN variant's validator instead rejects such a pair with a warning,
also identically on both of its ingestion paths.  The two variants thus
each behave consistently across paths but disagree with each other. -/
theorem c5_zero_revenue_amended :
    ∀ (rr rp : Raw) (pf : PyFloat) (kR kP : String),
      pyFloatOf rr = some (.finite 0) → pyFloatOf rp = some pf →
      Enterprise.validate_record rr rp = (some ⟨.finite 0, pf⟩, []) ∧
      (Enterprise.csvProcessRows 2 [[rr, rp]]).1 = [⟨.finite 0, pf⟩] ∧
      (Enterprise.jsonProcessItems kR kP [.arr [rr, rp]]).1 = [⟨.finite 0, pf⟩] ∧
      Plain.validate_financial_data rr rp = (none, [.zeroRevenueSkipped pf]) ∧
      (Plain.csvRows [[rr, rp]]).1 = [] ∧
      (Plain.jsonItems [.arr [rr, rp]]).1 = [] := by
  intro rr rp pf kR kP h0 hp
  have hz : pyEq (PyFloat.finite 0) (.finite 0) = true := (pyEq_zero_iff _).mpr rfl
  have hv : Enterprise.validate_record rr rp = (some ⟨.finite 0, pf⟩, []) := by
    simp [Enterprise.validate_record, h0, hp]
  have hpv : Plain.validate_financial_data rr rp = (none, [.zeroRevenueSkipped pf]) := by
    simp [Plain.validate_financial_data, h0, hp, hz]
  refine ⟨hv, ?_, ?_, hpv, ?_, ?_⟩
  · simp [Enterprise.csvProcessRows, hv]
  · simp [Enterprise.jsonProcessItems, Enterprise.jsonItemStep, hv]
  · simp [Plain.csvRows, hpv]
  · simp [Plain.jsonItems, hpv]

/-- C5 witness: the amended statement at the concrete pair ("0", "5")
with the default JSON keys. -/
theorem c5_zero_revenue_witness :
    Enterprise.validate_record (.str ("0")) (.str ("5")) =
      (some ⟨.finite 0, .finite 5⟩, []) ∧
    (Enterprise.csvProcessRows 2 [[.str ("0"), .str ("5")]]).1 =
      [⟨.finite 0, .finite 5⟩] ∧
    (Enterprise.jsonProcessItems ("revenue") ("profit")
        [.arr [.str ("0"), .str ("5")]]).1 = [⟨.finite 0, .finite 5⟩] ∧
    Plain.validate_financial_data (.str ("0")) (.str ("5")) =
      (none, [.zeroRevenueSkipped (.finite 5)]) ∧
    (Plain.csvRows [[.str ("0"), .str ("5")]]).1 = [] ∧
    (Plain.jsonItems [.arr [.str ("0"), .str ("5")]]).1 = [] :=
  c5_zero_revenue_amended (.str ("0")) (.str ("5")) (.finite 5) ("revenue") ("profit")
    (by with_unfolding_all rfl) (by with_unfolding_all rfl)

end FinReport

namespace FinReport

namespace Enterprise

theorem csvProcessRows_cons (n : Nat) (row : List Raw) (rest : List (List Raw)) :
    (csvProcessRows n (row :: rest)).1 =
      (match row with
       | a :: b :: _ =>
         match (validate_record a b).1 with
         | some r => [r]
         | none => []
       | _ => []) ++ (csvProcessRows (n + 1) rest).1 := by
  rcases row with - | ⟨a, row'⟩
  · rfl
  rcases row' with - | ⟨b, rest'⟩
  · rfl
  rcases hv : validate_record a b with ⟨o, ds⟩
  cases o with
  | some r => simp [csvProcessRows, hv]
  | none => simp [csvProcessRows, hv]

theorem csvProcessRows_append :
    ∀ (xs ys : List (List Raw)) (n : Nat),
      (csvProcessRows n (xs ++ ys)).1 =
        (csvProcessRows n xs).1 ++ (csvProcessRows (n + xs.length) ys).1 := by
  intro xs
  induction xs with
  | nil => intro ys n; simp [csvProcessRows]
  | cons row rest ih =>
    intro ys n
    rw [List.cons_append, csvProcessRows_cons, csvProcessRows_cons, ih ys (n + 1),
      (by simp [List.length_cons]; omega :
        n + 1 + rest.length = n + (row :: rest).length),
      List.append_assoc]

theorem jsonProcessItems_cons (kR kP : String) (it : JsonItem) (rest : List JsonItem) :
    (jsonProcessItems kR kP (it :: rest)).1 =
      (match jsonItemStep kR kP it with
       | some (some r, _) => [r]
       | _ => []) ++ (jsonProcessItems kR kP rest).1 := by
  cases hstep : jsonItemStep kR kP it with
  | none => simp [jsonProcessItems, hstep]
  | some pr =>
    rcases pr with ⟨o, ds⟩
    cases o with
    | some r => simp [jsonProcessItems, hstep]
    | none => simp [jsonProcessItems, hstep]

theorem jsonProcessItems_append (kR kP : String) :
    ∀ (xs ys : List JsonItem),
      (jsonProcessItems kR kP (xs ++ ys)).1 =
        (jsonProcessItems kR kP xs).1 ++ (jsonProcessItems kR kP ys).1 := by
  intro xs
  induction xs with
  | nil => intro ys; simp [jsonProcessItems]
  | cons it rest ih =>
    intro ys
    rw [List.cons_append, jsonProcessItems_cons, jsonProcessItems_cons, ih ys,
      List.append_assoc]

end Enterprise


/-- C4: row-level failures are isolated.  Processing of CSV rows and of
JSON items distributes over concatenation, so bad rows cannot affect
other rows: a row that validates to a record is yielded no matter what
precedes or follows it (stated explicitly for both paths), and a
too-short CSV row consumes exactly its own slot, adding one diagnostic.
All stream functions of the embedding are total Lean functions, so no
row-level failure surfaces as an exception: failures only reduce the
yielded records and extend the diagnostics. -/
theorem c4_row_isolation :
    (∀ (n : Nat) (xs ys : List (List Raw)),
       (Enterprise.csvProcessRows n (xs ++ ys)).1 =
         (Enterprise.csvProcessRows n xs).1 ++
           (Enterprise.csvProcessRows (n + xs.length) ys).1) ∧
    (∀ (kR kP : String) (xs ys : List JsonItem),
       (Enterprise.jsonProcessItems kR kP (xs ++ ys)).1 =
         (Enterprise.jsonProcessItems kR kP xs).1 ++
           (Enterprise.jsonProcessItems kR kP ys).1) ∧
    (∀ (n : Nat) (xs ys : List (List Raw)) (a b : Raw) (rest : List Raw)
       (r : Enterprise.FinancialRecord),
       (Enterprise.validate_record a b).1 = some r →
       (Enterprise.csvProcessRows n (xs ++ (a :: b :: rest) :: ys)).1 =
         (Enterprise.csvProcessRows n xs).1 ++
           r :: (Enterprise.csvProcessRows (n + xs.length + 1) ys).1) ∧
    (∀ (kR kP : String) (xs ys : List JsonItem) (it : JsonItem)
       (r : Enterprise.FinancialRecord),
       Enterprise.jsonItemStep kR kP it = some (some r, []) →
       (Enterprise.jsonProcessItems kR kP (xs ++ it :: ys)).1 =
         (Enterprise.jsonProcessItems kR kP xs).1 ++
           r :: (Enterprise.jsonProcessItems kR kP ys).1) ∧
    (∀ (n : Nat) (row : List Raw) (rest : List (List Raw)),
       row.length < 2 →
       Enterprise.csvProcessRows n (row :: rest) =
         ((Enterprise.csvProcessRows (n + 1) rest).1,
          .insufficientColumns n :: (Enterprise.csvProcessRows (n + 1) rest).2)) := by
  refine ⟨fun n xs ys => Enterprise.csvProcessRows_append xs ys n,
          fun kR kP xs ys => Enterprise.jsonProcessItems_append kR kP xs ys,
          ?_, ?_, ?_⟩
  · intro n xs ys a b rest r hv
    rw [Enterprise.csvProcessRows_append, Enterprise.csvProcessRows_cons]
    simp [hv]
  · intro kR kP xs ys it r hstep
    rw [Enterprise.jsonProcessItems_append, Enterprise.jsonProcessItems_cons]
    simp [hstep]
  · intro n row rest hlen
    rcases row with - | ⟨a, row'⟩
    · rfl
    rcases row' with - | ⟨b, rest'⟩
    · rfl
    simp only [List.length_cons] at hlen
    omega

/-- C4 witness: a valid row (2, 3) placed after an invalid single-column
row is still validated and yielded. -/
theorem c4_row_isolation_witness :
    (Enterprise.csvProcessRows 2
        ([[Raw.str ("x")]] ++ (Raw.str ("2") :: Raw.str ("3") :: []) :: [])).1 =
      (Enterprise.csvProcessRows 2 [[Raw.str ("x")]]).1 ++
        (⟨.finite 2, .finite 3⟩ : Enterprise.FinancialRecord) ::
          (Enterprise.csvProcessRows (2 + [[Raw.str ("x")]].length + 1) []).1 :=
  c4_row_isolation.2.2.1 2 [[Raw.str ("x")]] [] (Raw.str ("2")) (Raw.str ("3")) []
    ⟨.finite 2, .finite 3⟩ (by with_unfolding_all rfl)

end FinReport

namespace FinReport

/-- C7 counterexample: in the plain variant (whose CSV reader the claim
cites) an I/O failure while reading the CSV is NOT fatal: the loader
prints an error and returns an empty dataset, main goes on to print the
empty-report notice, and the process exits with status 0 where the claim
requires a non-zero exit. -/
theorem c7_csv_fatal_counterexample :
    Plain.main (some ("data.csv")) .err (.ok []) = ⟨[], .emptyNotice, 0⟩ ∧
    (Plain.main (some ("data.csv")) .err (.ok [])).exitCode = 0 ∧
    Plain.load_data_from_csv .err = ([], [.readCsvFailed]) := by
  refine ⟨?_, ?_, ?_⟩ <;> with_unfolding_all rfl

/-- C7 (amended): I/O failures of the enterprise CSV reader do terminate
the process with non-zero status, but in two different shapes: a failure
of the full open/read is caught, logged as an error diagnostic, and
turned into sys.exit(1) — by which time the run banner and the table
header and separator have already been printed, so the stdout output is
not empty; a failure during the encoding probe escapes the reader as an
uncaught exception (exit status 1, no error diagnostic), because
detect_encoding runs outside the try block and only catches
UnicodeDecodeError.  The plain variant's CSV reader is not fatal at all:
it prints an error, returns an empty dataset, and the run ends normally
with exit status 0 and the empty-report notice. -/
theorem c7_csv_fatal_amended :
    (∀ probeOk : Bool,
       Enterprise.stream_csv ⟨.ok probeOk, .err⟩ =
         .fatalExit 1 ((if probeOk then [] else [Diag.utf8Fallback]) ++ [.readCsvFailed])) ∧
    (∀ rows, Enterprise.stream_csv ⟨.err, rows⟩ = .uncaught) ∧
    (∀ m : Enterprise.CsvReadModel, m.probe = .err ∨ m.readRows = .err →
       Enterprise.exitCodeOf (Enterprise.runStream (Enterprise.stream_csv m)).exit ≠ 0) ∧
    (∀ m : Enterprise.CsvReadModel, m.probe ≠ .err → m.readRows = .err →
       ∃ ds, Enterprise.runStream (Enterprise.stream_csv m) =
         ⟨[.banner, .tableHeader, .tableSep], ds, .fatalExit 1⟩ ∧
         Diag.readCsvFailed ∈ ds) ∧
    Plain.load_data_from_csv .err = ([], [.readCsvFailed]) ∧
    (∀ (f : String) (jsonRead : ReadResult (List JsonItem)),
       pyEndsWith f (".csv") = true →
       Plain.main (some f) .err jsonRead = ⟨[], .emptyNotice, 0⟩) := by
  refine ⟨?_, ?_, ?_, ?_, rfl, ?_⟩
  · intro p
    cases p <;> rfl
  · intro rows
    rfl
  · rintro ⟨probe, readRows⟩ (h | h)
    · subst h
      exact fun hc => Nat.one_ne_zero hc
    · subst h
      cases probe with
      | err => exact fun hc => Nat.one_ne_zero hc
      | ok b => cases b <;> exact fun hc => Nat.one_ne_zero hc
  · rintro ⟨probe, readRows⟩ hp hr
    subst hr
    cases probe with
    | err => exact absurd rfl hp
    | ok b =>
      refine ⟨(if b then [] else [Diag.utf8Fallback]) ++ [.readCsvFailed], ?_, ?_⟩
      · cases b <;> rfl
      · cases b <;> simp
  · intro f jsonRead h
    simp [Plain.main, h, Plain.load_data_from_csv, Plain.format_and_print_table]

end FinReport

namespace FinReport

/-- C7 witness: a run whose probe succeeds (UTF-8) but whose full read
fails ends with the fatal-exit trace and the logged CSV read error. -/
theorem c7_csv_fatal_witness :
    ∃ ds, Enterprise.runStream (Enterprise.stream_csv ⟨.ok true, .err⟩) =
      ⟨[.banner, .tableHeader, .tableSep], ds, .fatalExit 1⟩ ∧
      Diag.readCsvFailed ∈ ds :=
  c7_csv_fatal_amended.2.2.2.1 ⟨.ok true, .err⟩ (by simp) rfl

/-- C8 counterexample: on an unsupported extension the plain variant
prints an error message and returns normally: the process exits with
status 0, not the non-zero status the claim requires (records produced
are still zero and no report is rendered). -/
theorem c8_extension_counterexample :
    Plain.main (some ("data.txt")) (.ok []) (.ok []) = ⟨[], .unsupportedMsg, 0⟩ ∧
    (Plain.main (some ("data.txt")) (.ok []) (.ok [])).exitCode = 0 := by
  constructor <;> with_unfolding_all rfl

/-- C8 (amended): for a file path ending in neither ".csv" nor ".json",
the enterprise variant produces zero records, logs the
unsupported-extension error and exits 1 before printing anything; the
plain variant also produces zero records and prints an error message,
but returns normally with exit status 0. -/
theorem c8_extension_amended :
    (∀ (f kR kP : String) (csvM : Enterprise.CsvReadModel)
       (jsonM : Enterprise.JsonReadResult),
       pyEndsWith f (".csv") = false → pyEndsWith f (".json") = false →
       Enterprise.main f kR kP csvM jsonM =
         ⟨[], [.unsupportedExtension], .fatalExit 1⟩) ∧
    (∀ (f : String) (csvRead : ReadResult (List (List Raw)))
       (jsonRead : ReadResult (List JsonItem)),
       pyEndsWith f (".csv") = false → pyEndsWith f (".json") = false →
       Plain.main (some f) csvRead jsonRead = ⟨[], .unsupportedMsg, 0⟩) := by
  constructor
  · intro f kR kP csvM jsonM h1 h2
    simp [Enterprise.main, h1, h2]
  · intro f csvRead jsonRead h1 h2
    simp [Plain.main, h1, h2]

/-- C8 witness: the enterprise variant on "data.txt" exits 1 with the
unsupported-extension diagnostic and an empty stdout. -/
theorem c8_extension_witness :
    Enterprise.main ("data.txt") ("revenue") ("profit") ⟨.ok true, .ok []⟩
        (.ok (.list [])) = ⟨[], [.unsupportedExtension], .fatalExit 1⟩ :=
  c8_extension_amended.1 _ _ _ _ _ (by with_unfolding_all rfl)
    (by with_unfolding_all rfl)

end FinReport
